import Mathlib

/-!
Shallow embedding of the `code_explainer` analysis pipeline
(`src/__init__.py`): the fact/hit-count merge (`explain_file`), the
instrumented executor (`run_with_trace` with its `stub_input` and
`fast_sleep` stubs), the backend invocation (`call_local_llm`) and the
response handling of `explain_with_llm` (pre-flag pass and JSON clean-up),
together with theorems settling the specification claims.
-/

namespace CodeExplainer

/-- Python default whitespace characters, as used by `str.strip` /
`str.rstrip` with no argument (ASCII subset; the analyzed sources are
treated as ASCII-whitespace-delimited). -/
def isPySpace (c : Char) : Bool :=
  c == ' ' || c == '\t' || c == '\n' || c == '\r' || c == '\x0b' || c == '\x0c'

/-- Drop the maximal run of characters satisfying `p` from the end of a
character list (the core of Python `str.rstrip`). -/
def dropTrailing (p : Char → Bool) : List Char → List Char
  | [] => []
  | c :: cs =>
    match dropTrailing p cs with
    | [] => if p c then [] else [c]
    | d :: ds => c :: d :: ds

/-- Python `text.rstrip()`: remove trailing whitespace. -/
def pyRstrip (s : String) : String :=
  ⟨dropTrailing isPySpace s.data⟩

/-- Python `not text.strip()`: the line is empty or whitespace-only. -/
def pyIsBlank (s : String) : Bool :=
  s.data.all isPySpace

/-- One merged per-line record, as built by `explain_file`
(lines 150-154 of `src/__init__.py`): line number, right-stripped line
text, and the ordered facts list. -/
structure ExplanationRecord where
  line : Nat
  code : String
  facts : List String
deriving DecidableEq, Repr

/-- The placeholder facts list installed by `explain_file` when a line has
neither a FactMap entry nor a hit-count entry (line 148 of
`src/__init__.py`). -/
def placeholderFacts : List String :=
  ["(no AST events; likely comment/blank or simple expression)"]

/-- The runtime annotation string appended by `explain_file` when line `i`
has a hit-count entry `h` (line 145 of `src/__init__.py`,
`f"runtime: executed ...x"`). -/
def runtimeFact (h : Nat) : String :=
  "runtime: executed " ++ toString h ++ "x"

/-- The facts list `line_info` computed by `explain_file` for line `i`
(lines 141-148 of `src/__init__.py`): the FactMap entry if present,
followed by the runtime annotation if a hit count is present, with the
placeholder replacing an empty result. -/
def lineInfo (facts : Nat → Option (List String)) (hits : Nat → Option Nat)
    (i : Nat) : List String :=
  let base := ((facts i).getD []) ++
    (match hits i with
     | some h => [runtimeFact h]
     | none => [])
  if base = [] then placeholderFacts else base

/-- The loop of `explain_file` (lines 137-154 of `src/__init__.py`),
generalized over the index of the first remaining line: skip blank lines,
otherwise emit a record with right-stripped code and `lineInfo` facts. -/
def mergeFrom (facts : Nat → Option (List String)) (hits : Nat → Option Nat) :
    Nat → List String → List ExplanationRecord
  | _, [] => []
  | i, text :: rest =>
    if pyIsBlank text then
      mergeFrom facts hits (i + 1) rest
    else
      { line := i, code := pyRstrip text, facts := lineInfo facts hits i } ::
        mergeFrom facts hits (i + 1) rest

/-- The merge performed by `explain_file` on the already-split source
lines (`enumerate(lines, start=1)`), given the FactMap and HitCountMap as
lookup functions (Python dict membership/access). -/
def explain_file_merge (lines : List String)
    (facts : Nat → Option (List String)) (hits : Nat → Option Nat) :
    List ExplanationRecord :=
  mergeFrom facts hits 1 lines

/-! Instrumented executor: `run_with_trace` (lines 71-123) -/

/-- Outcome of the traced entry call `tracer.runfunc(func, *args, **kwargs)`
(line 112): either it completes, yielding the tracer's raw per-line counts
keyed by (filename, line) and the captured output text, or the entry
routine raises (the exception propagates uncaught). -/
inductive TraceRun where
  | ok (rawCounts : List ((String × Nat) × Nat)) (output : String)
  | raises
deriving DecidableEq, Repr

/-- `globs.get(entry)` followed by `callable(func)` (lines 107-108): the
loaded module namespace is modeled as an association list from binding
name to whether the bound value is callable; an absent name behaves like
`None`, which is not callable. -/
def lookupCallable (globs : List (String × Bool)) (e : String) : Bool :=
  (globs.lookup e).getD false

/-- Python `s.endswith(suffix)`: `suffix` is a suffix of `s`, via character
lists. -/
def pyEndsWith (s suffix : String) : Bool :=
  suffix.data.reverse.isPrefixOf s.data.reverse

/-- The extraction step of `run_with_trace` (line 122):
`{ln: hits for (fname, ln), hits in results.counts.items() if fname.endswith(path)}`. -/
def extract_counts (path : String) (raw : List ((String × Nat) × Nat)) :
    List (Nat × Nat) :=
  (raw.filter (fun p => pyEndsWith p.1.1 path)).map (fun p => (p.1.2, p.2))

/-- The result/control-flow model of `run_with_trace` (lines 102-123):
given the loaded namespace, the optional entry name and the outcome of the
traced call, produce either the returned `(counts, output)` pair or a
propagated exception (`Except.error`). The early returns at lines 110 and
115 yield an empty map; a completed trace is filtered by `extract_counts`.
Note: in the source the `.ok`-trace outcome is unreachable — the
with-statement at line 111 names `contextlib.redirect_stdin`, which does
not exist in any Python version, so the callable-entry branch raises
`AttributeError` before `tracer.runfunc`; `run_with_trace_actual` below
models the actual behavior, and only the early-return and raised paths of
this oracle model occur. -/
def run_with_trace (path : String) (entry : Option String)
    (globs : List (String × Bool)) (run : TraceRun) :
    Except Unit (List (Nat × Nat) × String) :=
  match entry with
  | some e =>
    if lookupCallable globs e then
      match run with
      | .ok raw output => .ok (extract_counts path raw, output)
      | .raises => .error ()
    else .ok ([], "")
  | none => .ok ([], "")

/-- The exception class raised by the with-statement at line 111:
`contextlib.redirect_stdin` does not exist (only `redirect_stdout` and
`redirect_stderr` do), so looking it up on the `contextlib` module raises
`AttributeError`. -/
inductive PyError where
  | attributeError
deriving DecidableEq, Repr

/-- The actual behavior of `run_with_trace` as written (lines 102-123):
with no entry, or a missing/non-callable entry, the early returns at
lines 115 and 110 yield `({}, "")`; with a callable entry, evaluating the
context managers of the with-statement at line 111 raises `AttributeError`
(`contextlib.redirect_stdin` does not exist) before `tracer.runfunc` runs,
the `finally` block restores the stubs, and the exception propagates —
the extraction at line 122 is dead code, so no traced call ever returns a
hit-count map. -/
def run_with_trace_actual (_path : String) (entry : Option String)
    (globs : List (String × Bool)) :
    Except PyError (List (Nat × Nat) × String) :=
  match entry with
  | some e =>
    if lookupCallable globs e then .error .attributeError
    else .ok ([], "")
  | none => .ok ([], "")

/-! Ambient-state model of `run_with_trace` for the stub discipline -/

/-- The two process-wide capabilities mutated by `run_with_trace`:
`builtins.input` and `time.sleep` (their current bindings, of abstract
types). -/
structure Ambient (ι σ : Type) where
  input : ι
  sleep : σ
deriving DecidableEq

/-- Exit kind of the `try` body of `run_with_trace` (lines 102-115):
an early `return` (entry unset, or entry missing/not callable), a
completed traced call falling through to the extraction at line 121, or an
exception raised by the entry routine. -/
inductive BodyExit where
  | earlyReturn (v : List (Nat × Nat) × String)
  | completedTrace (rawCounts : List ((String × Nat) × Nat)) (output : String)
  | raised

/-- `run_with_trace` with the ambient state threaded explicitly
(lines 86-123): the original bindings are captured (lines 87-88), the
stubs installed (lines 103-104), the body runs — the traced entry routine
may itself rewrite the ambient state arbitrarily (`bodyEffect`) — and the
`finally` block (lines 117-119) reassigns the captured originals on every
exit path before the result leaves the function. In the source the
`completedTrace` exit is unreachable (the with-statement at line 111
raises `AttributeError`, see `run_with_trace_actual`): the real
callable-entry executions take the `raised` exit, which this model covers;
keeping the extra exit only makes the restoration theorem cover a superset
of the real paths. -/
def run_with_trace_state {ι σ : Type} (path : String) (entry : Option String)
    (globs : List (String × Bool)) (run : TraceRun)
    (stubI : ι) (stubS : σ) (bodyEffect : Ambient ι σ → Ambient ι σ)
    (st0 : Ambient ι σ) :
    Except Unit (List (Nat × Nat) × String) × Ambient ι σ :=
  let original_input := st0.input
  let original_sleep := st0.sleep
  let st1 : Ambient ι σ := { input := stubI, sleep := stubS }
  let body : BodyExit × Ambient ι σ :=
    match entry with
    | some e =>
      if lookupCallable globs e then
        match run with
        | .ok raw output => (.completedTrace raw output, bodyEffect st1)
        | .raises => (.raised, bodyEffect st1)
      else (.earlyReturn ([], ""), st1)
    | none => (.earlyReturn ([], ""), st1)
  let st3 : Ambient ι σ :=
    { body.2 with input := original_input, sleep := original_sleep }
  match body.1 with
  | .earlyReturn v => (.ok v, st3)
  | .completedTrace raw output => (.ok (extract_counts path raw, output), st3)
  | .raised => (.error (), st3)

/-! The input stub (`stub_input`, lines 90-92) over a `StringIO` buffer -/

/-- `io.StringIO.readline` on the remaining buffer contents: the prefix up
to and including the first newline (or the whole rest if none), paired
with the remainder. -/
def readline : List Char → List Char × List Char
  | [] => ([], [])
  | c :: cs =>
    if c = '\n' then ([c], cs)
    else
      let (l, r) := readline cs
      (c :: l, r)

/-- `line.rstrip("\n")`: remove trailing newline characters. -/
def rstripNl (l : List Char) : List Char :=
  dropTrailing (fun c => c == '\n') l

/-- One call of the installed `stub_input` (lines 90-92): read a line from
the buffer, return it with the trailing newline stripped, or the empty
string once the buffer is exhausted; also returns the advanced buffer. -/
def stub_input (buf : List Char) : List Char × List Char :=
  let (line, rest) := readline buf
  (if line = [] then [] else rstripNl line, rest)

/-- The result of the `n`-th successive `stub_input` call (0-based) on a
buffer initially holding `buf`. -/
def nthRead (buf : List Char) : Nat → List Char
  | 0 => (stub_input buf).1
  | n + 1 => nthRead (stub_input buf).2 n

/-- The lines of the stdin buffer, newline-terminated or not, with the
newline excluded (Python `splitlines` restricted to `"\n"` separators):
the reference notion of "the buffer's lines" for the input-stub claim. -/
def bufLines : List Char → List (List Char)
  | [] => []
  | c :: cs =>
    if c = '\n' then [] :: bufLines cs
    else
      match bufLines cs with
      | [] => [[c]]
      | l :: ls => (c :: l) :: ls

/-! The pause stub (`fast_sleep`, lines 94-96) -/

/-- The duration handed to the saved original `time.sleep` by `fast_sleep`
(line 96): `min(float(s), 0.01)`. Durations are modeled as rationals;
`0.01` is exactly `1/100` seconds. -/
def fast_sleep_duration (s : ℚ) : ℚ :=
  min s (1 / 100)

/-! Backend invocation: `call_local_llm` (lines 177-200) -/

/-- Outcome of one `subprocess.run(["ollama", "run", MODEL], ...)` attempt
(lines 183-189): either the per-attempt timeout expires
(`subprocess.TimeoutExpired`), or the process completes with a return code
and its stdout/stderr text. -/
inductive AttemptResult where
  | timeout
  | completed (returncode : Nat) (stdout : String) (stderr : String)
deriving DecidableEq, Repr

/-- How `call_local_llm` ends: the decoded stdout on success, the
`RuntimeError` raised on a non-zero backend exit (line 192, carrying the
backend's stderr diagnostic printed at line 191), the `SystemExit` raised
when every attempt timed out (line 198), or the `SystemExit` for a missing
backend (line 200). -/
inductive LlmResult where
  | success (text : String)
  | fatalRuntimeError (stderr : String)
  | fatalTimeoutExit
  | fatalNoBackend
deriving DecidableEq, Repr

/-- The `for attempt in range(retries + 1)` loop of `call_local_llm`
(lines 180-198): run the backend for the current attempt index; a
completed run returns stdout if the exit code is zero and raises
`RuntimeError` otherwise (the `except` clause catches only
`TimeoutExpired`, so this propagates immediately); a timeout retries while
`attempt < retries` and otherwise raises `SystemExit`. -/
def llmAttemptLoop (backend : Nat → AttemptResult) (retries : Nat)
    (attempt : Nat) : LlmResult :=
  match backend attempt with
  | .completed rc out err => if rc ≠ 0 then .fatalRuntimeError err else .success out
  | .timeout =>
    if h : attempt < retries then llmAttemptLoop backend retries (attempt + 1)
    else .fatalTimeoutExit
termination_by retries - attempt
decreasing_by omega

/-- `call_local_llm` (lines 177-200): with a backend available
(`USE_OLLAMA`), run the attempt loop with `retries = 2`; otherwise raise
`SystemExit` ("No local LLM runner found"). The backend's behavior on each
attempt is supplied as an oracle indexed by attempt number. -/
def call_local_llm (useOllama : Bool) (backend : Nat → AttemptResult) :
    LlmResult :=
  if useOllama then llmAttemptLoop backend 2 0 else .fatalNoBackend

/-! The `explain_with_llm`: pre-flag pass and response clean-up (lines 213-236) -/

/-- `sub` occurs contiguously in `l`: Boolean infix test on character
lists. -/
def isInfixB (sub : List Char) : List Char → Bool
  | [] => sub.isEmpty
  | c :: cs => sub.isPrefixOf (c :: cs) || isInfixB sub cs

/-- `sub in s` for strings, via character lists: `sub` occurs contiguously
in `s`. -/
def containsStr (s sub : String) : Bool :=
  isInfixB sub.data s.data

/-- The flag list `ff` accumulated by the pre-flag pass for one record
(lines 216-222 of `src/__init__.py`). -/
def preflag_flags (facts : List String) : List String :=
  (if ¬ facts.any (fun f => containsStr f "runtime: executed") then
    ["never_executed_in_trace"] else []) ++
  (if facts.any (fun f =>
      containsStr f "writes_to_network" || containsStr f "scrape_untrusted") then
    ["risky_io_or_network"] else []) ++
  (if facts.any (fun f => containsStr f "execute_code") then
    ["dynamic_code_execution"] else [])

/-- The pre-flag pass body for one record (lines 215-224 of
`src/__init__.py`): compute the flag list `ff` and, when it is non-empty,
append the single combined `precheck_flags:` annotation to the record's
facts. -/
def preflag_record (it : ExplanationRecord) : ExplanationRecord :=
  let ff := preflag_flags it.facts
  if ff.isEmpty then it
  else { it with facts := it.facts ++ ["precheck_flags: " ++ String.intercalate "," ff] }

/-- The pre-flag loop over all records (`for it in facts:`), with the
in-place mutation rendered as a map. -/
def preflag_pass (facts : List ExplanationRecord) : List ExplanationRecord :=
  facts.map preflag_record

/-- `raw.find("{")`: index of the first occurrence of `c`, or `none`
standing for Python's `-1`. -/
def firstIdx (c : Char) : List Char → Option Nat
  | [] => none
  | a :: l => if a = c then some 0 else (firstIdx c l).map (· + 1)

/-- `raw.rfind("}")`: index of the last occurrence of `c`, or `none`
standing for Python's `-1`. -/
def lastIdx (c : Char) : List Char → Option Nat
  | [] => none
  | a :: l =>
    match lastIdx c l with
    | some i => some (i + 1)
    | none => if a = c then some 0 else none

/-- The naive clean-up of `explain_with_llm` (lines 231-233):
`cleaned = raw[start:end+1] if start != -1 and end != -1 else raw`, with
`start = raw.find("{")` and `end = raw.rfind("}")`. -/
def llm_cleaned (raw : List Char) : List Char :=
  match firstIdx '{' raw, lastIdx '}' raw with
  | some s, some e => (raw.drop s).take (e + 1 - s)
  | _, _ => raw

/-- The parse step of `explain_with_llm` (line 234): `json.loads(cleaned)`,
with the JSON parser abstracted as an oracle from text to an optional
parsed value (`none` standing for a raised `JSONDecodeError`). -/
def explain_llm_parse (J : Type) (jsonLoads : List Char → Option J)
    (raw : List Char) : Option J :=
  jsonLoads (llm_cleaned raw)


/-! Theorems settling the specification claims C1-C10. -/

theorem mergeFrom_cons_blank (facts : Nat → Option (List String)) (hits : Nat → Option Nat)
    (text : String) (rest : List String) (i : Nat) (h : pyIsBlank text = true) :
    mergeFrom facts hits i (text :: rest) = mergeFrom facts hits (i + 1) rest := by
  simp [mergeFrom, h]

theorem mergeFrom_cons_nonblank (facts : Nat → Option (List String)) (hits : Nat → Option Nat)
    (text : String) (rest : List String) (i : Nat) (h : pyIsBlank text = false) :
    mergeFrom facts hits i (text :: rest)
      = { line := i, code := pyRstrip text, facts := lineInfo facts hits i } ::
          mergeFrom facts hits (i + 1) rest := by
  simp [mergeFrom, h]

theorem mergeFrom_map_line (facts : Nat → Option (List String)) (hits : Nat → Option Nat) :
    ∀ (l : List String) (i : Nat),
      (mergeFrom facts hits i l).map (fun r => r.line)
        = ((List.enumFrom i l).filter (fun p => !pyIsBlank p.2)).map Prod.fst
  | [], _ => rfl
  | text :: rest, i => by
    rcases Bool.eq_false_or_eq_true (pyIsBlank text) with hT | hF
    · rw [mergeFrom_cons_blank facts hits text rest i hT]
      simp [List.enumFrom_cons, hT, mergeFrom_map_line facts hits rest (i+1)]
    · rw [mergeFrom_cons_nonblank facts hits text rest i hF]
      simp [List.enumFrom_cons, hF, mergeFrom_map_line facts hits rest (i+1)]

theorem mergeFrom_line_ge (facts : Nat → Option (List String)) (hits : Nat → Option Nat) :
    ∀ (l : List String) (i : Nat), ∀ r ∈ mergeFrom facts hits i l, i ≤ r.line
  | [], _, r, hr => absurd hr (List.not_mem_nil r)
  | text :: rest, i, r, hr => by
    rcases Bool.eq_false_or_eq_true (pyIsBlank text) with hT | hF
    · rw [mergeFrom_cons_blank facts hits text rest i hT] at hr
      exact Nat.le_of_succ_le (mergeFrom_line_ge facts hits rest (i+1) r hr)
    · rw [mergeFrom_cons_nonblank facts hits text rest i hF] at hr
      rcases List.mem_cons.mp hr with h1 | h1
      · subst h1; rfl
      · exact Nat.le_of_succ_le (mergeFrom_line_ge facts hits rest (i+1) r h1)

theorem mergeFrom_pairwise (facts : Nat → Option (List String)) (hits : Nat → Option Nat) :
    ∀ (l : List String) (i : Nat),
      (mergeFrom facts hits i l).Pairwise (fun a b => a.line < b.line)
  | [], _ => List.Pairwise.nil
  | text :: rest, i => by
    rcases Bool.eq_false_or_eq_true (pyIsBlank text) with hT | hF
    · rw [mergeFrom_cons_blank facts hits text rest i hT]
      exact mergeFrom_pairwise facts hits rest (i+1)
    · rw [mergeFrom_cons_nonblank facts hits text rest i hF]
      refine List.Pairwise.cons ?_ (mergeFrom_pairwise facts hits rest (i+1))
      intro r hr
      exact Nat.lt_of_succ_le (mergeFrom_line_ge facts hits rest (i+1) r hr)
theorem mergeFrom_line_mem (facts : Nat → Option (List String)) (hits : Nat → Option Nat) :
    ∀ (l : List String) (i j : Nat),
      (j ∈ (mergeFrom facts hits i l).map (fun r => r.line))
        ↔ (i ≤ j ∧ j < i + l.length ∧ pyIsBlank (l.getD (j - i) "") = false)
  | [], i, j => by simp [mergeFrom]; omega
  | text :: rest, i, j => by
    have ih := mergeFrom_line_mem facts hits rest (i+1) j
    rcases Bool.eq_false_or_eq_true (pyIsBlank text) with hT | hF
    · rw [mergeFrom_cons_blank facts hits text rest i hT]
      rw [ih]
      constructor
      · rintro ⟨h1, h2, h3⟩
        refine ⟨by omega, by simp; omega, ?_⟩
        have hji : j - i = (j - (i+1)) + 1 := by omega
        rw [hji]
        simpa using h3
      · rintro ⟨h1, h2, h3⟩
        rcases Nat.eq_or_lt_of_le h1 with he | hlt
        · exfalso
          subst he
          simp at h3
          rw [hT] at h3
          exact absurd h3 (by decide)
        · refine ⟨hlt, by simp at h2; omega, ?_⟩
          have hji : j - i = (j - (i+1)) + 1 := by omega
          rw [hji] at h3
          simpa using h3
    · rw [mergeFrom_cons_nonblank facts hits text rest i hF]
      simp only [List.map_cons, List.mem_cons]
      rw [ih]
      constructor
      · rintro (he | ⟨h1, h2, h3⟩)
        · subst he
          refine ⟨le_refl _, by simp, ?_⟩
          simpa using hF
        · refine ⟨by omega, by simp; omega, ?_⟩
          have hji : j - i = (j - (i+1)) + 1 := by omega
          rw [hji]
          simpa using h3
      · rintro ⟨h1, h2, h3⟩
        rcases Nat.eq_or_lt_of_le h1 with he | hlt
        · left; exact he.symm
        · right
          refine ⟨hlt, by simp at h2; omega, ?_⟩
          have hji : j - i = (j - (i+1)) + 1 := by omega
          rw [hji] at h3
          simpa using h3

/-- Claim C1: for every source (given as its split physical lines) and any
FactMap and HitCountMap, the record sequence produced by the merge of
`explain_file` carries exactly the non-blank lines among 1..N — its line
numbers are the first components of the non-blank entries of
`enumFrom 1 lines` — in strictly ascending order (hence each exactly
once), and line `j` appears iff `1 ≤ j ≤ N` and line `j` is not
whitespace-only. -/
theorem explain_file_merge_coverage (lines : List String)
    (facts : Nat → Option (List String)) (hits : Nat → Option Nat) :
    ((explain_file_merge lines facts hits).map (fun r => r.line)
        = ((List.enumFrom 1 lines).filter (fun p => !pyIsBlank p.2)).map Prod.fst)
    ∧ ((explain_file_merge lines facts hits).map (fun r => r.line)).Pairwise (· < ·)
    ∧ (∀ j, j ∈ (explain_file_merge lines facts hits).map (fun r => r.line)
        ↔ (1 ≤ j ∧ j ≤ lines.length ∧ pyIsBlank (lines.getD (j - 1) "") = false)) := by
  refine ⟨mergeFrom_map_line facts hits lines 1, ?_, ?_⟩
  · rw [List.pairwise_map]
    exact mergeFrom_pairwise facts hits lines 1
  · intro j
    rw [show explain_file_merge lines facts hits = mergeFrom facts hits 1 lines from rfl]
    rw [mergeFrom_line_mem facts hits lines 1 j]
    constructor
    · rintro ⟨a, b, c⟩; exact ⟨a, by omega, c⟩
    · rintro ⟨a, b, c⟩; exact ⟨a, by omega, c⟩
/-- Claim C2, code bug: the claim describes the Extract step the spec
intends, but in the source every execution with a callable entry raises
`AttributeError` at the with-statement of line 111 (the nonexistent
`contextlib.redirect_stdin`) before `tracer.runfunc`, so the line-122
`endswith` extraction is dead code: at the failing input (path `foo.py`,
entry `main` bound to a callable) the call raises instead of returning a
filtered map, and every map `run_with_trace` does return — entry unset, or
missing/non-callable — is empty. -/
theorem run_with_trace_traced_call_raises :
    run_with_trace_actual "foo.py" (some "main") [("main", true)]
        = .error .attributeError
    ∧ (∀ (path : String) (entry : Option String) (globs : List (String × Bool)),
        run_with_trace_actual path entry globs = .error .attributeError
        ∨ run_with_trace_actual path entry globs = .ok ([], "")) := by
  refine ⟨rfl, ?_⟩
  intro path entry globs
  rcases entry with _ | e
  · right; rfl
  · by_cases h : lookupCallable globs e
    · left; simp [run_with_trace_actual, h]
    · right; simp [run_with_trace_actual, h]

/-- Claim C3: when the entry name is set but absent from the loaded module
namespace or bound to a non-callable value, `run_with_trace` returns an
empty HitCountMap and empty output text, and never raises (the result is
`Except.ok`, regardless of the traced-call oracle, including a raising
one). -/
theorem run_with_trace_entry_not_callable (path e : String)
    (globs : List (String × Bool)) (run : TraceRun)
    (h : lookupCallable globs e = false) :
    run_with_trace path (some e) globs run = .ok ([], "") := by
  simp [run_with_trace, h]

/-- Witness for claim C3 at a concrete input: entry `main` bound to a
non-callable value. -/
theorem run_with_trace_entry_not_callable_witness :
    lookupCallable [("main", false)] "main" = false
    ∧ run_with_trace "prog.py" (some "main") [("main", false)] .raises = .ok ([], "") :=
  ⟨by decide, run_with_trace_entry_not_callable "prog.py" "main" [("main", false)] .raises (by decide)⟩

/-- Claim C4, counterexample: for a non-blank line with neither a FactMap
entry nor a hit count, the merged facts list is not the claimed string
"no structural events; likely comment/blank or simple expression" — the
code uses a different placeholder text. -/
theorem merge_placeholder_text_cex :
    ¬ ((explain_file_merge ["pass"] (fun _ => none) (fun _ => none)).map (fun r => r.facts)
        = [["no structural events; likely comment/blank or simple expression"]]) := by
  decide

theorem mergeFrom_facts_eq (facts : Nat → Option (List String)) (hits : Nat → Option Nat) :
    ∀ (l : List String) (i : Nat), ∀ r ∈ mergeFrom facts hits i l,
      r.facts = lineInfo facts hits r.line
  | [], _, r, hr => absurd hr (List.not_mem_nil r)
  | text :: rest, i, r, hr => by
    rcases Bool.eq_false_or_eq_true (pyIsBlank text) with hT | hF
    · rw [mergeFrom_cons_blank facts hits text rest i hT] at hr
      exact mergeFrom_facts_eq facts hits rest (i+1) r hr
    · rw [mergeFrom_cons_nonblank facts hits text rest i hF] at hr
      rcases List.mem_cons.mp hr with h1 | h1
      · subst h1; rfl
      · exact mergeFrom_facts_eq facts hits rest (i+1) r h1

/-- Claim C4 as amended: for every non-blank line that has neither a
FactMap entry nor a hit-count entry, the merged facts list is exactly the
single placeholder string
"(no AST events; likely comment/blank or simple expression)" actually used
by `explain_file`. -/
theorem merge_placeholder_of_absent (lines : List String)
    (facts : Nat → Option (List String)) (hits : Nat → Option Nat)
    (r : ExplanationRecord) (hr : r ∈ explain_file_merge lines facts hits)
    (hf : facts r.line = none) (hh : hits r.line = none) :
    r.facts = placeholderFacts := by
  rw [mergeFrom_facts_eq facts hits lines 1 r hr]
  simp [lineInfo, hf, hh]

/-- Witness for claim C4 (amended) at a concrete input: a single line
`pass` with empty FactMap and HitCountMap. -/
theorem merge_placeholder_of_absent_witness :
    (⟨1, "pass", placeholderFacts⟩ : ExplanationRecord)
        ∈ explain_file_merge ["pass"] (fun _ => none) (fun _ => none)
    ∧ (⟨1, "pass", placeholderFacts⟩ : ExplanationRecord).facts = placeholderFacts :=
  ⟨by decide,
    merge_placeholder_of_absent ["pass"] (fun _ => none) (fun _ => none)
      ⟨1, "pass", placeholderFacts⟩ (by decide) rfl rfl⟩
/-- Claim C5: `call_local_llm` retries only on per-attempt timeout, up to
2 additional attempts (3 total): a zero-exit completion on any of the
three attempts (with all earlier attempts timing out) returns its stdout;
a non-zero exit on the attempt where it occurs is fatal immediately
(`RuntimeError` with the stderr diagnostic) and is never retried; three
timeouts exhaust the attempts and are fatal (`SystemExit`). -/
theorem call_local_llm_retry_policy (backend : Nat → AttemptResult) :
    (∀ out err : String, backend 0 = .completed 0 out err →
        call_local_llm true backend = .success out)
    ∧ (∀ (rc : Nat) (out err : String), rc ≠ 0 → backend 0 = .completed rc out err →
        call_local_llm true backend = .fatalRuntimeError err)
    ∧ (∀ out err : String, backend 0 = .timeout → backend 1 = .completed 0 out err →
        call_local_llm true backend = .success out)
    ∧ (∀ (rc : Nat) (out err : String), rc ≠ 0 →
        backend 0 = .timeout → backend 1 = .completed rc out err →
        call_local_llm true backend = .fatalRuntimeError err)
    ∧ (∀ out err : String, backend 0 = .timeout → backend 1 = .timeout →
        backend 2 = .completed 0 out err →
        call_local_llm true backend = .success out)
    ∧ (∀ (rc : Nat) (out err : String), rc ≠ 0 →
        backend 0 = .timeout → backend 1 = .timeout → backend 2 = .completed rc out err →
        call_local_llm true backend = .fatalRuntimeError err)
    ∧ (backend 0 = .timeout → backend 1 = .timeout → backend 2 = .timeout →
        call_local_llm true backend = .fatalTimeoutExit) := by
  refine ⟨?_, ?_, ?_, ?_, ?_, ?_, ?_⟩
  · intro out err h0
    simp [call_local_llm]
    rw [llmAttemptLoop, h0]
    simp
  · intro rc out err hrc h0
    simp [call_local_llm]
    rw [llmAttemptLoop, h0]
    simp [hrc]
  · intro out err h0 h1
    simp [call_local_llm]
    rw [llmAttemptLoop, h0]
    simp
    rw [llmAttemptLoop, h1]
    simp
  · intro rc out err hrc h0 h1
    simp [call_local_llm]
    rw [llmAttemptLoop, h0]
    simp
    rw [llmAttemptLoop, h1]
    simp [hrc]
  · intro out err h0 h1 h2
    simp [call_local_llm]
    rw [llmAttemptLoop, h0]
    simp
    rw [llmAttemptLoop, h1]
    simp
    rw [llmAttemptLoop, h2]
    simp
  · intro rc out err hrc h0 h1 h2
    simp [call_local_llm]
    rw [llmAttemptLoop, h0]
    simp
    rw [llmAttemptLoop, h1]
    simp
    rw [llmAttemptLoop, h2]
    simp [hrc]
  · intro h0 h1 h2
    simp [call_local_llm]
    rw [llmAttemptLoop, h0]
    simp
    rw [llmAttemptLoop, h1]
    simp
    rw [llmAttemptLoop, h2]
    simp

/-- Witness for claim C5 at a concrete backend: timeout on the first two
attempts, success on the third. -/
theorem call_local_llm_retry_policy_witness :
    call_local_llm true
        (fun n => if n < 2 then AttemptResult.timeout else .completed 0 "ok" "")
      = .success "ok" :=
  (call_local_llm_retry_policy
      (fun n => if n < 2 then AttemptResult.timeout else .completed 0 "ok" "")).2.2.2.2.1
    "ok" "" rfl rfl rfl

/-- Claim C6: on every exit path of `run_with_trace` after stub
installation — normal return, early return for a missing/non-callable or
unset entry, or an entry-routine exception — the ambient state leaving the
call equals the pre-call state: `builtins.input` and `time.sleep` are
restored to their saved originals, whatever the traced code did to them
(`bodyEffect` is arbitrary). -/
theorem run_with_trace_state_restores {ι σ : Type} (path : String)
    (entry : Option String) (globs : List (String × Bool)) (run : TraceRun)
    (stubI : ι) (stubS : σ) (bodyEffect : Ambient ι σ → Ambient ι σ)
    (st0 : Ambient ι σ) :
    (run_with_trace_state path entry globs run stubI stubS bodyEffect st0).2 = st0 := by
  obtain ⟨a, b⟩ := st0
  unfold run_with_trace_state
  rcases entry with _ | e
  · rfl
  · dsimp only
    by_cases h : lookupCallable globs e
    · simp only [h, if_true]
      rcases run with ⟨raw, out⟩ | _ <;> rfl
    · simp only [h, if_false]
      rfl
theorem rstripNl_nil : rstripNl [] = [] := rfl

theorem rstripNl_cons_ne (c : Char) (l : List Char) (h : ¬ c = '\n') :
    rstripNl (c :: l) = c :: rstripNl l := by
  unfold rstripNl
  rcases hd : dropTrailing (fun x => x == '\n') l with _ | ⟨d, ds⟩
  · simp [dropTrailing, hd, h]
  · simp [dropTrailing, hd]

theorem readline_cons_nl (cs : List Char) : readline ('\n' :: cs) = (['\n'], cs) := by
  simp [readline]

theorem readline_cons_ne (c : Char) (cs : List Char) (h : ¬ c = '\n') :
    readline (c :: cs) = (c :: (readline cs).1, (readline cs).2) := by
  rcases h2 : readline cs with ⟨l, r⟩
  simp [readline, h, h2]

theorem bufLines_readline : ∀ (buf : List Char), buf ≠ [] →
    bufLines buf = rstripNl (readline buf).1 :: bufLines (readline buf).2
  | [], h => absurd rfl h
  | c :: cs, _ => by
    by_cases hc : c = '\n'
    · subst hc
      rw [readline_cons_nl]
      have hr : rstripNl ['\n'] = [] := rfl
      simp [bufLines, hr]
    · rw [readline_cons_ne c cs hc]
      dsimp only
      rw [rstripNl_cons_ne c _ hc]
      rcases hcs : cs with _ | ⟨d, ds⟩
      · subst hcs
        simp [bufLines, readline, hc, rstripNl_nil]
      · have hne : cs ≠ [] := by rw [hcs]; exact List.cons_ne_nil d ds
        have ih := bufLines_readline cs hne
        rw [← hcs]
        simp only [bufLines, hc, if_false]
        rw [ih]

theorem stub_input_fst (buf : List Char) :
    (stub_input buf).1 = rstripNl (readline buf).1 := by
  rcases h : readline buf with ⟨line, rest⟩
  by_cases hl : line = []
  · subst hl
    simp [stub_input, h, rstripNl_nil]
  · simp [stub_input, h, hl]

theorem stub_input_snd (buf : List Char) :
    (stub_input buf).2 = (readline buf).2 := by
  rcases h : readline buf with ⟨line, rest⟩
  simp [stub_input, h]

theorem nthRead_eq_bufLines (n : Nat) : ∀ (buf : List Char),
    nthRead buf n = (bufLines buf).getD n [] := by
  induction n with
  | zero =>
    intro buf
    rcases hb : buf with _ | ⟨c, cs⟩
    · rfl
    · rw [← hb]
      have hne : buf ≠ [] := by rw [hb]; exact List.cons_ne_nil c cs
      rw [show nthRead buf 0 = (stub_input buf).1 from rfl, stub_input_fst,
          bufLines_readline buf hne]
      rfl
  | succ n ih =>
    intro buf
    rcases hb : buf with _ | ⟨c, cs⟩
    · rw [show nthRead [] (n + 1) = nthRead (stub_input []).2 n from rfl]
      rw [show (stub_input ([] : List Char)).2 = [] from rfl]
      rw [ih []]
      rfl
    · rw [← hb]
      have hne : buf ≠ [] := by rw [hb]; exact List.cons_ne_nil c cs
      rw [show nthRead buf (n + 1) = nthRead (stub_input buf).2 n from rfl,
          stub_input_snd, ih ((readline buf).2), bufLines_readline buf hne]
      rfl

/-- Claim C7: successive reads through the installed `stub_input` return
the lines of the stdin buffer in order with the trailing newline stripped
(`bufLines`), and every read past the end of the buffer returns the empty
string; in particular for buffer "a\nb\n" the reads give "a", "b", and
then "" forever. -/
theorem stub_input_reads_lines :
    (∀ (buf : List Char) (n : Nat), nthRead buf n = (bufLines buf).getD n [])
    ∧ nthRead "a\nb\n".data 0 = "a".data
    ∧ nthRead "a\nb\n".data 1 = "b".data
    ∧ (∀ n : Nat, nthRead "a\nb\n".data (n + 2) = []) := by
  refine ⟨fun buf n => nthRead_eq_bufLines n buf, by decide, by decide, ?_⟩
  intro n
  rw [nthRead_eq_bufLines (n + 2) "a\nb\n".data]
  rw [show bufLines "a\nb\n".data = ["a".data, "b".data] from by decide]
  rcases n with _ | m <;> rfl

/-- Claim C8: whatever duration is requested of the installed `fast_sleep`
stub, the duration actually passed to the underlying saved `time.sleep` is
`min(s, 0.01)`, which never exceeds 10 milliseconds (durations modeled as
rationals). -/
theorem fast_sleep_clamped (s : ℚ) : fast_sleep_duration s ≤ 1 / 100 :=
  min_le_right s (1 / 100)
/-- Claim C9, counterexample: the pre-flag pass of `explain_with_llm` is
not read-only — on a record with no runtime annotation it appends a
`precheck_flags:` string to the facts list in place, so the record
sequence changes. -/
theorem preflag_mutates_record :
    preflag_pass [⟨1, "x = 1", ["assign: x = 1"]⟩] ≠ [⟨1, "x = 1", ["assign: x = 1"]⟩] := by
  decide

/-- Claim C9 as amended: the pre-flag pass never modifies a record's line
or code, and its only modification of the facts list is to append exactly
one combined `precheck_flags:` annotation (for a non-empty flag list);
when no flag applies the record is unchanged. -/
theorem preflag_preserves_line_code (it : ExplanationRecord) :
    (preflag_record it).line = it.line ∧ (preflag_record it).code = it.code ∧
    ((preflag_record it).facts = it.facts ∨
      ∃ fl : List String, fl ≠ [] ∧
        (preflag_record it).facts
          = it.facts ++ ["precheck_flags: " ++ String.intercalate "," fl]) := by
  by_cases h : (preflag_flags it.facts).isEmpty
  · simp [preflag_record, h]
  · refine ⟨?_, ?_, Or.inr ⟨preflag_flags it.facts, ?_, ?_⟩⟩ <;>
      simp [preflag_record, h]
    simpa [List.isEmpty_iff] using h

theorem firstIdx_eq_none (c : Char) : ∀ (l : List Char), c ∉ l → firstIdx c l = none
  | [], _ => rfl
  | a :: l, h => by
    have ha : ¬ a = c := by
      intro e
      subst e
      exact h (List.mem_cons_self a l)
    have hl : c ∉ l := fun hm => h (List.mem_cons_of_mem a hm)
    simp [firstIdx, ha, firstIdx_eq_none c l hl]

theorem lastIdx_eq_none (c : Char) : ∀ (l : List Char), c ∉ l → lastIdx c l = none
  | [], _ => rfl
  | a :: l, h => by
    have ha : ¬ a = c := by
      intro e
      subst e
      exact h (List.mem_cons_self a l)
    have hl : c ∉ l := fun hm => h (List.mem_cons_of_mem a hm)
    simp [lastIdx, ha, lastIdx_eq_none c l hl]

theorem llm_cleaned_of_braceless (raw : List Char) (h : '{' ∉ raw ∨ '}' ∉ raw) :
    llm_cleaned raw = raw := by
  rcases h with h | h
  · simp [llm_cleaned, firstIdx_eq_none '{' raw h]
  · cases hf : firstIdx '{' raw <;>
      simp [llm_cleaned, hf, lastIdx_eq_none '}' raw h]

/-- Claim C10: when the raw backend response contains no opening brace or
no closing brace, `explain_with_llm` does not fail before parsing — the
cleaned text handed to `json.loads` is the entire raw response unmodified,
so whatever the JSON parser returns on the raw text is returned. -/
theorem explain_llm_parse_braceless (J : Type) (jsonLoads : List Char → Option J)
    (raw : List Char) (h : '{' ∉ raw ∨ '}' ∉ raw) :
    explain_llm_parse J jsonLoads raw = jsonLoads raw := by
  unfold explain_llm_parse
  rw [llm_cleaned_of_braceless raw h]

/-- Witness for claim C10 at a concrete input: a brace-free response
"[1,2]" is passed to the parser whole. -/
theorem explain_llm_parse_braceless_witness :
    ('{' ∉ "[1,2]".data)
    ∧ explain_llm_parse Nat (fun l => some l.length) ("[1,2]".data) = some 5 := by
  refine ⟨by decide, ?_⟩
  rw [explain_llm_parse_braceless Nat (fun l => some l.length) ("[1,2]".data)
        (Or.inl (by decide))]
  decide
end CodeExplainer
